import Mathlib

/-!
Verification of the framed repository: a shallow embedding of the
frame protocol code and proofs of the specified properties.

Streams are modelled as lists of bytes (natural numbers below 256); a
read consumes from the front of the list, a write appends to an output
list.  Machine integers are modelled as Nat with explicit reductions
modulo 2^16 where the code converts to uint16, and the int-typed
remaining-byte counters of the frame reader are modelled as Int because
the code can drive them negative.
-/

namespace Framed

/-- Errors and abnormal terminations of the frame reader code.
eof models io.EOF, alreadyRead the AlreadyReadError value, panicSlice a
Go slice-bounds panic, blockedRecv and blockedSend a channel operation
that blocks forever in a single-threaded run, fuelOut an iteration
budget exhausted (used only to make loop models total). -/
inductive GoErr where
  | eof
  | alreadyRead
  | panicSlice
  | blockedRecv
  | blockedSend
  | fuelOut
  deriving DecidableEq, Repr

/-- State of one Frame being read from a Framed, together with the
remaining bytes of the underlying raw stream.  Mirrors the fields of
Frame and its two frameSection values in framed.go: headerLength and
bodyLength are the decoded uint16 lengths, frameRemaining is
Frame.bytesRemaining, headerRemaining and bodyRemaining are the
bytesRemaining fields of the header and body frameSection, the
started flags are their startedReading fields, and doneSignal records
whether the doneReading channel (capacity 1) currently holds a value. -/
structure FrameSt where
  headerLength : Nat
  bodyLength : Nat
  frameRemaining : Int
  headerRemaining : Int
  bodyRemaining : Int
  headerStarted : Bool
  bodyStarted : Bool
  doneSignal : Bool
  stream : List Nat
  deriving DecidableEq, Repr

/-- Result of one frameSection.Read call: byte count returned, the
bytes delivered into the caller buffer, the Go error value returned
(none models a nil error), and the state afterwards. -/
structure ReadResult where
  n : Nat
  bytes : List Nat
  err : Option GoErr
  st : FrameSt
  deriving DecidableEq, Repr

/-- Little-endian encoding of a uint16 value as two bytes, as produced
by binary.Write with binary.LittleEndian. -/
def encode16 (v : Nat) : List Nat :=
  [v % 256, v / 256 % 256]

/-- writeHeaderTo from framed.go: writes the header length then the
body length, each as a little-endian uint16. -/
def writeHeaderTo (headerLength bodyLength : Nat) : List Nat :=
  encode16 headerLength ++ encode16 bodyLength

/-- Framed.WriteFrame from framed.go: writes the two-field length
header (converting each length to uint16, hence modulo 2^16) followed
by the header bytes and the body bytes. -/
def WriteFrame (header body : List Nat) : List Nat :=
  writeHeaderTo (header.length % 65536) (body.length % 65536) ++ header ++ body

/-- Framed.nextFrame / Frame.readLengths from framed.go: decodes the
two little-endian uint16 length fields from the stream and builds a
fresh Frame whose doneReading channel is empty.  Fails when the stream
holds fewer than four bytes. -/
def nextFrameFrom (stream : List Nat) : Except GoErr FrameSt :=
  match stream with
  | a :: b :: c :: d :: rest =>
    .ok { headerLength := a + 256 * b
          bodyLength := c + 256 * d
          frameRemaining := ((a + 256 * b : Nat) : Int) + ((c + 256 * d : Nat) : Int)
          headerRemaining := ((a + 256 * b : Nat) : Int)
          bodyRemaining := ((c + 256 * d : Nat) : Int)
          headerStarted := false
          bodyStarted := false
          doneSignal := false
          stream := rest }
  | _ => .error .eof

/-- Frame.checkDone from framed.go: when bytesRemaining is zero it
sends on the doneReading channel (capacity 1); a second send while the
channel still holds a value blocks forever. -/
def checkDone (st : FrameSt) : Except GoErr FrameSt :=
  if st.frameRemaining = 0 then
    if st.doneSignal then .error .blockedSend
    else .ok { st with doneSignal := true }
  else .ok st

/-- frameSection.Read from framed.go for the header section (whose
init function is nil).  Returns zero bytes and a nil error when the
section has no bytes remaining; otherwise marks the section as started,
clamps the caller buffer to bytesRemaining (a Go slice-bounds panic
when bytesRemaining is negative), reads from the raw stream, decrements
both the section counter and the frame counter, converts the final
byte of the section into io.EOF, and runs checkDone. -/
def rdHeader (plen : Nat) (st : FrameSt) : Except GoErr ReadResult :=
  if st.headerRemaining = 0 then .ok ⟨0, [], none, st⟩
  else if st.headerRemaining < 0 then .error .panicSlice
  else
    let m : Nat := if (plen : Int) > st.headerRemaining then st.headerRemaining.toNat else plen
    let bytes := st.stream.take m
    let n := bytes.length
    let rawErr : Option GoErr := if n = 0 ∧ 0 < m then some .eof else none
    let st1 : FrameSt :=
      { st with headerStarted := true
                headerRemaining := st.headerRemaining - n
                frameRemaining := st.frameRemaining - n
                stream := st.stream.drop m }
    let err := if st1.headerRemaining = 0 then some .eof else rawErr
    match checkDone st1 with
    | .error e => .error e
    | .ok st2 => .ok ⟨n, bytes, err, st2⟩

/-- One iteration structure of io.Copy(ioutil.Discard, headerSection)
as run by frameSection.discard: reads the header section with the
8192-byte black-hole buffer used by ioutil.Discard, accumulates the
byte count, stops successfully when the section returns io.EOF, stops
with the error when it returns any other error, and loops while the
error is nil. -/
def discardLoop (fuel : Nat) (total : Nat) (st : FrameSt) :
    Except GoErr (Nat × Option GoErr × FrameSt) :=
  match fuel with
  | 0 => .error .fuelOut
  | fuel + 1 =>
    match rdHeader 8192 st with
    | .error e => .error e
    | .ok r =>
      match r.err with
      | none => discardLoop fuel (total + r.n) r.st
      | some .eof => .ok (total + r.n, none, r.st)
      | some e => .ok (total + r.n, some e, r.st)

/-- frameSection.discard from framed.go applied to the header section
(the init function installed on the body section).  When the header
has bytes remaining it drains them through io.Copy — whose reads via
frameSection.Read already decrement both counters — and then subtracts
the copied count from both counters a second time; finally it runs
checkDone. -/
def discardHeader (st : FrameSt) : Except GoErr (Option GoErr × FrameSt) :=
  if 0 < st.headerRemaining then
    match discardLoop (st.headerRemaining.toNat + 1) 0 st with
    | .error e => .error e
    | .ok (total, errOpt, st1) =>
      let st2 : FrameSt :=
        { st1 with frameRemaining := st1.frameRemaining - total
                   headerRemaining := st1.headerRemaining - total }
      match checkDone st2 with
      | .error e => .error e
      | .ok st3 => .ok (errOpt, st3)
  else
    match checkDone st with
    | .error e => .error e
    | .ok st1 => .ok (none, st1)

/-- frameSection.Read from framed.go for the body section, whose init
function is the header section's discard.  Returns zero bytes and a
nil error when the body has no bytes remaining; otherwise runs the
header discard (propagating its error, if any, with zero bytes), then
proceeds exactly as the header read does on the body counters. -/
def rdBody (plen : Nat) (st : FrameSt) : Except GoErr ReadResult :=
  if st.bodyRemaining = 0 then .ok ⟨0, [], none, st⟩
  else
    match discardHeader st with
    | .error e => .error e
    | .ok (some e, st1) => .ok ⟨0, [], some e, st1⟩
    | .ok (none, st1) =>
      if st1.bodyRemaining < 0 then .error .panicSlice
      else
        let m : Nat := if (plen : Int) > st1.bodyRemaining then st1.bodyRemaining.toNat else plen
        let bytes := st1.stream.take m
        let n := bytes.length
        let rawErr : Option GoErr := if n = 0 ∧ 0 < m then some .eof else none
        let st2 : FrameSt :=
          { st1 with bodyStarted := true
                     bodyRemaining := st1.bodyRemaining - n
                     frameRemaining := st1.frameRemaining - n
                     stream := st1.stream.drop m }
        let err := if st2.bodyRemaining = 0 then some .eof else rawErr
        match checkDone st2 with
        | .error e => .error e
        | .ok st3 => .ok ⟨n, bytes, err, st3⟩

/-- Frame.Next from framed.go: receives from the doneReading channel —
blocking forever in a single-threaded run when the channel is empty —
and then reads the next frame from the stream. -/
def frameNext (st : FrameSt) : Except GoErr FrameSt :=
  if st.doneSignal then nextFrameFrom st.stream else .error .blockedRecv

/-- Frame.CopyTo from framed.go: fails with AlreadyReadError (returned
as a Go error value, forwarding nothing) when either section has
started reading; otherwise writes the two length fields to the output,
copies headerLength+bodyLength bytes (a uint16 sum, hence modulo 2^16)
from the raw stream to the output, decrements the frame counter by the
count actually copied, and runs checkDone.  Returns the Go error
value, the output stream, and the state afterwards. -/
def copyTo (out : List Nat) (st : FrameSt) :
    Except GoErr (Option GoErr × List Nat × FrameSt) :=
  if st.headerStarted || st.bodyStarted then .ok (some .alreadyRead, out, st)
  else
    let total := (st.headerLength + st.bodyLength) % 65536
    let copied := st.stream.take total
    let n := copied.length
    let out1 := out ++ writeHeaderTo st.headerLength st.bodyLength ++ copied
    let st1 : FrameSt :=
      { st with stream := st.stream.drop total
                frameRemaining := st.frameRemaining - n }
    match checkDone st1 with
    | .error e => .error e
    | .ok st2 => .ok (if n < total then some .eof else none, out1, st2)

/-- Caller loop reading the header section to exhaustion: repeatedly
calls the section's Read with a buffer of plen bytes, accumulating the
delivered bytes, until the section returns io.EOF or makes no
progress. -/
def exhaustHeader (fuel plen : Nat) (acc : List Nat) (st : FrameSt) :
    Except GoErr (List Nat × FrameSt) :=
  match fuel with
  | 0 => .error .fuelOut
  | fuel + 1 =>
    match rdHeader plen st with
    | .error e => .error e
    | .ok r =>
      match r.err with
      | some .eof => .ok (acc ++ r.bytes, r.st)
      | some e => .error e
      | none =>
        if r.n = 0 then .ok (acc ++ r.bytes, r.st)
        else exhaustHeader fuel plen (acc ++ r.bytes) r.st

/-- Caller loop reading the body section to exhaustion, in the same
way as the header loop. -/
def exhaustBody (fuel plen : Nat) (acc : List Nat) (st : FrameSt) :
    Except GoErr (List Nat × FrameSt) :=
  match fuel with
  | 0 => .error .fuelOut
  | fuel + 1 =>
    match rdBody plen st with
    | .error e => .error e
    | .ok r =>
      match r.err with
      | some .eof => .ok (acc ++ r.bytes, r.st)
      | some e => .error e
      | none =>
        if r.n = 0 then .ok (acc ++ r.bytes, r.st)
        else exhaustBody fuel plen (acc ++ r.bytes) r.st

/-- Reading one frame from a wire byte sequence, section by section in
declared order: decode the lengths, read the header section to
exhaustion, then the body section to exhaustion.  The caller buffer of
65535 bytes can hold any section, since lengths are uint16. -/
def readFrameSections (wire : List Nat) : Except GoErr (List Nat × List Nat) :=
  match nextFrameFrom wire with
  | .error e => .error e
  | .ok st =>
    match exhaustHeader 4 65535 [] st with
    | .error e => .error e
    | .ok (h, st1) =>
      match exhaustBody 4 65535 [] st1 with
      | .error e => .error e
      | .ok (b, _) => .ok (h, b)

/-- Reading only the body section of a frame from a wire byte
sequence, without touching the header section first. -/
def readBodyFirst (wire : List Nat) : Except GoErr (List Nat) :=
  match nextFrameFrom wire with
  | .error e => .error e
  | .ok st =>
    match exhaustBody 4 65535 [] st with
    | .error e => .error e
    | .ok (b, _) => .ok b

end Framed

namespace Framed

/-- Frame state immediately after decoding the length header that
WriteFrame emitted for a header of length at most 65535 and a body of
length at most 65535. -/
def initSt (H B : List Nat) : FrameSt :=
  { headerLength := H.length
    bodyLength := B.length
    frameRemaining := (H.length : Int) + (B.length : Int)
    headerRemaining := (H.length : Int)
    bodyRemaining := (B.length : Int)
    headerStarted := false
    bodyStarted := false
    doneSignal := false
    stream := H ++ B }

lemma decode_encode16 (v : Nat) (hv : v ≤ 65535) :
    v % 256 + 256 * (v / 256 % 256) = v := by
  have h : v / 256 < 256 := by omega
  rw [Nat.mod_eq_of_lt h, Nat.mod_add_div]

lemma nextFrameFrom_writeFrame (H B : List Nat)
    (hH : H.length ≤ 65535) (hB : B.length ≤ 65535) :
    nextFrameFrom (WriteFrame H B) = .ok (initSt H B) := by
  have hH' : H.length % 65536 = H.length := Nat.mod_eq_of_lt (by omega)
  have hB' : B.length % 65536 = B.length := Nat.mod_eq_of_lt (by omega)
  simp only [WriteFrame, writeHeaderTo, encode16, hH', hB', List.cons_append,
    List.nil_append, nextFrameFrom, initSt]
  rw [decode_encode16 H.length hH, decode_encode16 B.length hB]

lemma rdHeader_exhausted (plen : Nat) (hl bl : Nat) (fr br : Int)
    (hs bs ds : Bool) (stm : List Nat) :
    rdHeader plen ⟨hl, bl, fr, 0, br, hs, bs, ds, stm⟩ =
      .ok ⟨0, [], none, ⟨hl, bl, fr, 0, br, hs, bs, ds, stm⟩⟩ := by
  simp [rdHeader]

lemma rdBody_exhausted (plen : Nat) (hl bl : Nat) (fr hr : Int)
    (hs bs ds : Bool) (stm : List Nat) :
    rdBody plen ⟨hl, bl, fr, hr, 0, hs, bs, ds, stm⟩ =
      .ok ⟨0, [], none, ⟨hl, bl, fr, hr, 0, hs, bs, ds, stm⟩⟩ := by
  simp [rdBody]

lemma rdHeader_all (plen k : Nat) (other : Int) (hl bl : Nat) (br : Int)
    (hs bs : Bool) (D rest : List Nat)
    (hk0 : 0 < k) (hkp : k ≤ plen) (hD : D.length = k) :
    rdHeader plen ⟨hl, bl, (k : Int) + other, (k : Int), br, hs, bs, false, D ++ rest⟩ =
      .ok ⟨k, D, some .eof, ⟨hl, bl, other, 0, br, true, bs, decide (other = 0), rest⟩⟩ := by
  have hkne : ((k : Int)) ≠ 0 := by omega
  have hknlt : ¬ ((k : Int) < 0) := by omega
  have hm : (if (plen : Int) > (k : Int) then ((k : Int)).toNat else plen) = k := by
    rcases Nat.lt_or_ge k plen with h | h
    · rw [if_pos (by exact_mod_cast h), Int.toNat_ofNat]
    · rw [if_neg (by exact_mod_cast Nat.not_lt.mpr h)]
      omega
  simp only [rdHeader, hm, hkne, hknlt, if_false, ite_false]
  rw [List.take_left' hD, List.drop_left' hD]
  have hsub : (k : Int) - (k : Nat) = 0 := by omega
  have hfr : (k : Int) + other - (k : Nat) = other := by omega
  by_cases hother : other = 0
  · simp [checkDone, hD, hsub, hfr, hother, hk0.ne']
  · simp [checkDone, hD, hsub, hfr, hother, hk0.ne']

end Framed

namespace Framed

lemma rdHeader_partial (plen k : Nat) (other : Int) (hl bl : Nat) (br : Int)
    (hs bs : Bool) (D rest : List Nat)
    (hp0 : 0 < plen) (hpk : plen < k) (hD : D.length = k) (hother : 0 < other) :
    rdHeader plen ⟨hl, bl, (k : Int) + other, (k : Int), br, hs, bs, false, D ++ rest⟩ =
      .ok ⟨plen, D.take plen, none,
        ⟨hl, bl, ((k - plen : Nat) : Int) + other, ((k - plen : Nat) : Int), br, true, bs, false,
         D.drop plen ++ rest⟩⟩ := by
  have hkne : ((k : Int)) ≠ 0 := by omega
  have hknlt : ¬ ((k : Int) < 0) := by omega
  have hm : (if (plen : Int) > (k : Int) then ((k : Int)).toNat else plen) = plen := by
    rw [if_neg (by exact_mod_cast Nat.not_lt.mpr hpk.le)]
  have htake : (D ++ rest).take plen = D.take plen :=
    List.take_append_of_le_length (by omega)
  have hdrop : (D ++ rest).drop plen = D.drop plen ++ rest :=
    List.drop_append_of_le_length (by omega)
  have hlen : (D.take plen).length = plen := by
    rw [List.length_take]; omega
  simp only [rdHeader, hm, hkne, hknlt, if_false, ite_false]
  rw [htake, hdrop, hlen]
  have h1 : (k : Int) - (plen : Nat) = ((k - plen : Nat) : Int) := by omega
  have h2 : (k : Int) + other - (plen : Nat) = ((k - plen : Nat) : Int) + other := by omega
  have h3 : ¬ ((k : Int) - (plen : Nat) = 0) := by omega
  have h4 : ¬ (((k - plen : Nat) : Int) + other = 0) := by omega
  have h5 : ¬ (k - plen = 0) := by omega
  simp [checkDone, h1, h2, h3, h4, h5, hp0.ne']

lemma discardLoop_drains (fuel : Nat) : ∀ (k total : Nat) (other : Int) (hl bl : Nat)
    (br : Int) (hs bs : Bool) (D rest : List Nat),
    0 < k → k ≤ 8192 * fuel → D.length = k → 0 < other →
    discardLoop fuel total ⟨hl, bl, (k : Int) + other, (k : Int), br, hs, bs, false, D ++ rest⟩ =
      .ok (total + k, none, ⟨hl, bl, other, 0, br, true, bs, false, rest⟩) := by
  induction fuel with
  | zero =>
    intro k total other hl bl br hs bs D rest hk0 hfuel hD hother
    omega
  | succ fuel ih =>
    intro k total other hl bl br hs bs D rest hk0 hfuel hD hother
    rcases le_or_lt k 8192 with hk | hk
    · rw [discardLoop, rdHeader_all 8192 k other hl bl br hs bs D rest hk0 hk hD]
      simp [hother.ne']
    · rw [discardLoop, rdHeader_partial 8192 k other hl bl br hs bs D rest (by omega) hk hD hother]
      have hrec := ih (k - 8192) (total + 8192) other hl bl br true bs (D.drop 8192) rest
        (by omega) (by omega) (by rw [List.length_drop]; omega) hother
      simp only []
      rw [hrec]
      have : total + 8192 + (k - 8192) = total + k := by omega
      rw [this]

lemma discardHeader_drains (k : Nat) (other : Int) (hl bl : Nat) (br : Int)
    (hs bs : Bool) (D rest : List Nat)
    (hk0 : 0 < k) (hD : D.length = k) (hother : 0 < other) :
    discardHeader ⟨hl, bl, (k : Int) + other, (k : Int), br, hs, bs, false, D ++ rest⟩ =
      .ok (none, ⟨hl, bl, other - (k : Int), -(k : Int), br, true, bs,
        decide (other - (k : Int) = 0), rest⟩) := by
  have hpos : (0 : Int) < (k : Int) := by omega
  have htn : ((k : Int)).toNat = k := Int.toNat_ofNat k
  simp only [discardHeader, hpos, if_true, htn]
  rw [discardLoop_drains (k + 1) k 0 other hl bl br hs bs D rest hk0 (by omega) hD hother]
  have hz : (0 : Nat) + k = k := by omega
  by_cases h : other - (k : Int) = 0
  · simp [checkDone, hz, h]
  · simp [checkDone, hz, h]

lemma rdBody_afterHeader (plen b : Nat) (hl bl : Nat) (hs bs : Bool) (B2 rest : List Nat)
    (hb0 : 0 < b) (hbp : b ≤ plen) (hB : B2.length = b) :
    rdBody plen ⟨hl, bl, (b : Int), 0, (b : Int), hs, bs, false, B2 ++ rest⟩ =
      .ok ⟨b, B2, some .eof, ⟨hl, bl, 0, 0, 0, hs, true, true, rest⟩⟩ := by
  have hbne : ((b : Int)) ≠ 0 := by omega
  have hbnlt : ¬ ((b : Int) < 0) := by omega
  have hm : (if (plen : Int) > (b : Int) then ((b : Int)).toNat else plen) = b := by
    rcases Nat.lt_or_ge b plen with h | h
    · rw [if_pos (by exact_mod_cast h), Int.toNat_ofNat]
    · rw [if_neg (by exact_mod_cast Nat.not_lt.mpr h)]
      omega
  have hsub : (b : Int) - (b : Nat) = 0 := by omega
  simp only [rdBody, hbne, ite_false, if_false, discardHeader, checkDone]
  simp only [show ¬ ((0 : Int) < 0) from by omega, if_false, hbne, ite_false]
  simp only [hm, hbnlt, List.take_left' hB, List.drop_left' hB, hB, hsub]
  simp [hb0.ne']

lemma rdBody_discard (plen k b : Nat) (hl bl : Nat) (hs bs : Bool) (D B2 rest : List Nat)
    (hk0 : 0 < k) (hb0 : 0 < b) (hbp : b ≤ plen) (hD : D.length = k) (hB : B2.length = b) :
    rdBody plen ⟨hl, bl, (k : Int) + (b : Int), (k : Int), (b : Int), hs, bs, false,
        D ++ (B2 ++ rest)⟩ =
      .ok ⟨b, B2, some .eof,
        ⟨hl, bl, -(k : Int), -(k : Int), 0, true, true, decide ((b : Int) - (k : Int) = 0), rest⟩⟩ := by
  have hbne : ((b : Int)) ≠ 0 := by omega
  have hm : (if (plen : Int) > (b : Int) then ((b : Int)).toNat else plen) = b := by
    rcases Nat.lt_or_ge b plen with h | h
    · rw [if_pos (by exact_mod_cast h), Int.toNat_ofNat]
    · rw [if_neg (by exact_mod_cast Nat.not_lt.mpr h)]
      omega
  simp only [rdBody, hbne, ite_false, if_false]
  rw [discardHeader_drains k (b : Int) hl bl (b : Int) hs bs D (B2 ++ rest) hk0 hD (by omega)]
  have hbnlt : ¬ ((b : Int) < 0) := by omega
  simp only [hm, hbnlt, if_false, ite_false, List.take_left' hB, List.drop_left' hB, hB]
  have h1 : (b : Int) - (k : Int) - (b : Nat) = -(k : Int) := by omega
  have h2 : (b : Int) - (b : Nat) = 0 := by omega
  have h3 : ¬ (-(k : Int) = 0) := by omega
  simp [checkDone, h1, h2, h3]

end Framed

namespace Framed

lemma exhaustHeader_done (fuel plen : Nat) (acc : List Nat) (hl bl : Nat) (fr br : Int)
    (hs bs ds : Bool) (stm : List Nat) :
    exhaustHeader (fuel + 1) plen acc ⟨hl, bl, fr, 0, br, hs, bs, ds, stm⟩ =
      .ok (acc, ⟨hl, bl, fr, 0, br, hs, bs, ds, stm⟩) := by
  simp only [exhaustHeader]
  rw [rdHeader_exhausted]
  simp

lemma exhaustHeader_allData (fuel plen k : Nat) (other : Int) (acc : List Nat)
    (hl bl : Nat) (br : Int) (hs bs : Bool) (D rest : List Nat)
    (hk0 : 0 < k) (hkp : k ≤ plen) (hD : D.length = k) :
    exhaustHeader (fuel + 1) plen acc
        ⟨hl, bl, (k : Int) + other, (k : Int), br, hs, bs, false, D ++ rest⟩ =
      .ok (acc ++ D, ⟨hl, bl, other, 0, br, true, bs, decide (other = 0), rest⟩) := by
  simp only [exhaustHeader]
  rw [rdHeader_all plen k other hl bl br hs bs D rest hk0 hkp hD]

lemma exhaustBody_done (fuel plen : Nat) (acc : List Nat) (hl bl : Nat) (fr hr : Int)
    (hs bs ds : Bool) (stm : List Nat) :
    exhaustBody (fuel + 1) plen acc ⟨hl, bl, fr, hr, 0, hs, bs, ds, stm⟩ =
      .ok (acc, ⟨hl, bl, fr, hr, 0, hs, bs, ds, stm⟩) := by
  simp only [exhaustBody]
  rw [rdBody_exhausted]
  simp

lemma exhaustBody_afterHeader (fuel plen b : Nat) (acc : List Nat) (hl bl : Nat)
    (hs bs : Bool) (B2 rest : List Nat)
    (hb0 : 0 < b) (hbp : b ≤ plen) (hB : B2.length = b) :
    exhaustBody (fuel + 1) plen acc
        ⟨hl, bl, (b : Int), 0, (b : Int), hs, bs, false, B2 ++ rest⟩ =
      .ok (acc ++ B2, ⟨hl, bl, 0, 0, 0, hs, true, true, rest⟩) := by
  simp only [exhaustBody]
  rw [rdBody_afterHeader plen b hl bl hs bs B2 rest hb0 hbp hB]

lemma exhaustBody_discard (fuel plen k b : Nat) (acc : List Nat) (hl bl : Nat)
    (hs bs : Bool) (D B2 rest : List Nat)
    (hk0 : 0 < k) (hb0 : 0 < b) (hbp : b ≤ plen) (hD : D.length = k) (hB : B2.length = b) :
    exhaustBody (fuel + 1) plen acc
        ⟨hl, bl, (k : Int) + (b : Int), (k : Int), (b : Int), hs, bs, false, D ++ (B2 ++ rest)⟩ =
      .ok (acc ++ B2,
        ⟨hl, bl, -(k : Int), -(k : Int), 0, true, true,
         decide ((b : Int) - (k : Int) = 0), rest⟩) := by
  simp only [exhaustBody]
  rw [rdBody_discard plen k b hl bl hs bs D B2 rest hk0 hb0 hbp hD hB]

/-- C1: for every header H and body B with lengths at most 65535,
writing the frame with WriteFrame and then reading the header section
and the body section to exhaustion reproduces H and B exactly, byte
for byte. -/
theorem writeFrame_roundtrip (H B : List Nat)
    (hH : H.length ≤ 65535) (hB : B.length ≤ 65535) :
    readFrameSections (WriteFrame H B) = .ok (H, B) := by
  simp only [readFrameSections]
  rw [nextFrameFrom_writeFrame H B hH hB]
  by_cases hH0 : H = []
  · subst hH0
    by_cases hB0 : B = []
    · subst hB0
      rfl
    · have hb0 : 0 < B.length := List.length_pos.mpr hB0
      simp only [initSt, List.length_nil, Nat.cast_zero, zero_add, List.nil_append]
      rw [show (4 : Nat) = 3 + 1 from rfl, exhaustHeader_done]
      have e2 := exhaustBody_afterHeader 3 65535 B.length [] 0 B.length false false B []
        hb0 hB rfl
      simp only [List.append_nil] at e2
      simp [e2]
  · have hk0 : 0 < H.length := List.length_pos.mpr hH0
    simp only [initSt]
    rw [show (4 : Nat) = 3 + 1 from rfl]
    rw [exhaustHeader_allData 3 65535 H.length ((B.length : Nat) : Int) [] H.length B.length
      ((B.length : Nat) : Int) false false H B hk0 hH rfl]
    simp only [List.nil_append]
    by_cases hB0 : B = []
    · subst hB0
      simp only [List.length_nil, Nat.cast_zero]
      rw [exhaustBody_done]
    · have hb0 : 0 < B.length := List.length_pos.mpr hB0
      have hds : (decide ((B.length : Int) = 0)) = false := by
        simp [hB0]
      rw [hds]
      have e2 := exhaustBody_afterHeader 3 65535 B.length [] H.length B.length true false B []
        hb0 hB rfl
      simp only [List.append_nil] at e2
      simp [e2]

/-- C4: for every frame with header H and body B, reading the body
section before touching the header section yields exactly the bytes of
B; the body read first silently drains the header from the stream. -/
theorem bodyFirst_yields_body (H B : List Nat)
    (hH : H.length ≤ 65535) (hB : B.length ≤ 65535) :
    readBodyFirst (WriteFrame H B) = .ok B := by
  simp only [readBodyFirst]
  rw [nextFrameFrom_writeFrame H B hH hB]
  by_cases hB0 : B = []
  · subst hB0
    simp only [initSt, List.length_nil, Nat.cast_zero, List.append_nil, add_zero]
    rw [show (4 : Nat) = 3 + 1 from rfl, exhaustBody_done]
  · have hb0 : 0 < B.length := List.length_pos.mpr hB0
    by_cases hH0 : H = []
    · subst hH0
      simp only [initSt, List.length_nil, Nat.cast_zero, zero_add, List.nil_append]
      have e2 := exhaustBody_afterHeader 3 65535 B.length [] 0 B.length false false B []
        hb0 hB rfl
      simp only [List.append_nil] at e2
      rw [show (4 : Nat) = 3 + 1 from rfl, e2]
      simp
    · have hk0 : 0 < H.length := List.length_pos.mpr hH0
      simp only [initSt]
      have e2 := exhaustBody_discard 3 65535 H.length B.length [] H.length B.length
        false false H B [] hk0 hb0 hB rfl rfl
      simp only [List.append_nil] at e2
      rw [show (4 : Nat) = 3 + 1 from rfl, e2]
      simp

/-- Witness for C1 at a concrete header and body. -/
theorem writeFrame_roundtrip_witness :
    ([1, 2] : List Nat).length ≤ 65535 ∧ ([3] : List Nat).length ≤ 65535 ∧
      readFrameSections (WriteFrame [1, 2] [3]) = .ok ([1, 2], [3]) :=
  ⟨by decide, by decide, writeFrame_roundtrip [1, 2] [3] (by decide) (by decide)⟩

/-- Witness for C4 at a concrete header and body. -/
theorem bodyFirst_yields_body_witness :
    ([5, 6] : List Nat).length ≤ 65535 ∧ ([7, 8, 9] : List Nat).length ≤ 65535 ∧
      readBodyFirst (WriteFrame [5, 6] [7, 8, 9]) = .ok [7, 8, 9] :=
  ⟨by decide, by decide, bodyFirst_yields_body [5, 6] [7, 8, 9] (by decide) (by decide)⟩

end Framed

namespace Framed

/-- C8: WriteFrame applied to the header bytes of the string HI and
the body bytes of the string BYE emits exactly the nine wire bytes
02 00 03 00 48 49 42 59 45 (decimal 2 0 3 0 72 73 66 89 69), and
reading that byte sequence back section by section yields the same
header and body. -/
theorem writeFrame_concrete_wire :
    WriteFrame [72, 73] [66, 89, 69] = [2, 0, 3, 0, 72, 73, 66, 89, 69] ∧
      readFrameSections [2, 0, 3, 0, 72, 73, 66, 89, 69] = .ok ([72, 73], [66, 89, 69]) := by
  exact ⟨rfl, rfl⟩

/-- C5 (amended): reading a section that has already been fully read
returns zero bytes with a nil Go error — not an AlreadyConsumed
error — and leaves all previously read state, including the stream
position, unchanged. -/
theorem rereadSection_returns_nothing (plen : Nat) (st : FrameSt) :
    (st.headerRemaining = 0 → rdHeader plen st = .ok ⟨0, [], none, st⟩) ∧
    (st.bodyRemaining = 0 → rdBody plen st = .ok ⟨0, [], none, st⟩) := by
  constructor
  · intro h
    simp [rdHeader, h]
  · intro h
    simp [rdBody, h]

/-- Witness for the amended C5 at the state reached after fully
reading the one-byte header of the frame 01 00 00 00 2a. -/
theorem rereadSection_returns_nothing_witness :
    (⟨1, 0, 0, 0, 0, true, false, true, []⟩ : FrameSt).headerRemaining = 0 ∧
      rdHeader 5 ⟨1, 0, 0, 0, 0, true, false, true, []⟩ =
        .ok ⟨0, [], none, ⟨1, 0, 0, 0, 0, true, false, true, []⟩⟩ :=
  ⟨rfl, (rereadSection_returns_nothing 5 ⟨1, 0, 0, 0, 0, true, false, true, []⟩).1 rfl⟩

/-- C5 counterexample: on the frame 01 00 00 00 with header byte 42,
reading the header to exhaustion and then reading it a second time
returns zero bytes with a nil error and the state unchanged; no
AlreadyConsumed error is produced, refuting the original claim that a
second read fails with AlreadyConsumed. -/
theorem rereadSection_counterexample :
    nextFrameFrom [1, 0, 0, 0, 42] = .ok ⟨1, 0, 1, 1, 0, false, false, false, [42]⟩ ∧
      rdHeader 5 ⟨1, 0, 1, 1, 0, false, false, false, [42]⟩ =
        .ok ⟨1, [42], some .eof, ⟨1, 0, 0, 0, 0, true, false, true, []⟩⟩ ∧
      rdHeader 5 ⟨1, 0, 0, 0, 0, true, false, true, []⟩ =
        .ok ⟨0, [], none, ⟨1, 0, 0, 0, 0, true, false, true, []⟩⟩ :=
  ⟨rfl, rfl, rfl⟩

/-- C6: evaluation of the code at the failing input.  Decoding the
zero-length frame 00 00 00 00 yields a frame that is already fully
drained (bytesRemaining is zero) but whose doneReading channel is
empty, because checkDone only runs on consumption actions; Frame.Next
on this frame therefore blocks forever instead of proceeding, contrary
to the claim (and to the documentation of Frame.Next) that a fully
drained frame lets the waiter proceed. -/
theorem nextFrame_zeroLength_blocks :
    nextFrameFrom [0, 0, 0, 0] = .ok ⟨0, 0, 0, 0, 0, false, false, false, []⟩ ∧
      frameNext ⟨0, 0, 0, 0, 0, false, false, false, []⟩ = .error .blockedRecv :=
  ⟨rfl, rfl⟩

/-- C7 (amended): CopyTo fails with an AlreadyRead error, forwarding
nothing and leaving the state unchanged, whenever either section has
started reading; the converse exclusivity — that a frame forwarded via
CopyTo cannot also be read section by section — is not enforced by the
code. -/
theorem copyTo_rejects_after_read (out : List Nat) (st : FrameSt)
    (h : st.headerStarted = true ∨ st.bodyStarted = true) :
    copyTo out st = .ok (some .alreadyRead, out, st) := by
  rcases h with h | h <;> simp [copyTo, h]

/-- Witness for the amended C7 at a concrete started state. -/
theorem copyTo_rejects_after_read_witness :
    ((⟨1, 1, 1, 0, 1, true, false, false, [9]⟩ : FrameSt).headerStarted = true ∨
      (⟨1, 1, 1, 0, 1, true, false, false, [9]⟩ : FrameSt).bodyStarted = true) ∧
      copyTo [] ⟨1, 1, 1, 0, 1, true, false, false, [9]⟩ =
        .ok (some .alreadyRead, [], ⟨1, 1, 1, 0, 1, true, false, false, [9]⟩) :=
  ⟨Or.inl rfl, copyTo_rejects_after_read [] ⟨1, 1, 1, 0, 1, true, false, false, [9]⟩ (Or.inl rfl)⟩

/-- C7 counterexample: on the frame 01 00 01 00 with payload bytes
10 20 followed by a byte 30 of the next frame, CopyTo succeeds and
forwards the whole frame, yet a header section read afterwards still
succeeds with no AlreadyRead error — it delivers the byte 30 that
belongs to the next frame, because CopyTo never updates the section
counters.  This refutes the claim that a frame forwarded via CopyTo
cannot also be read section by section. -/
theorem copyTo_then_read_counterexample :
    nextFrameFrom [1, 0, 1, 0, 10, 20, 30] =
        .ok ⟨1, 1, 2, 1, 1, false, false, false, [10, 20, 30]⟩ ∧
      copyTo [] ⟨1, 1, 2, 1, 1, false, false, false, [10, 20, 30]⟩ =
        .ok (none, [1, 0, 1, 0, 10, 20], ⟨1, 1, 0, 1, 1, false, false, true, [30]⟩) ∧
      rdHeader 1 ⟨1, 1, 0, 1, 1, false, false, true, [30]⟩ =
        .ok ⟨1, [30], some .eof, ⟨1, 1, -1, 0, 1, true, false, true, []⟩⟩ :=
  ⟨rfl, rfl, rfl⟩

/-- C10 counterexample: on the frame 01 00 01 00 with header byte 170
and body byte 187, a single call to the body section Read with a one
byte buffer consumes two bytes from the underlying stream — the
undrained header byte as well as the body byte — although the body
section had only one byte remaining.  This refutes the claim that a
single section read consumes at most the section's remaining byte
count. -/
theorem sectionRead_overconsumes_counterexample :
    nextFrameFrom [1, 0, 1, 0, 170, 187] =
        .ok ⟨1, 1, 2, 1, 1, false, false, false, [170, 187]⟩ ∧
      (⟨1, 1, 2, 1, 1, false, false, false, [170, 187]⟩ : FrameSt).bodyRemaining = 1 ∧
      rdBody 1 ⟨1, 1, 2, 1, 1, false, false, false, [170, 187]⟩ =
        .ok ⟨1, [187], some .eof, ⟨1, 1, -1, -1, 0, true, true, true, []⟩⟩ ∧
      (⟨1, 1, 2, 1, 1, false, false, false, [170, 187]⟩ : FrameSt).stream.length -
          (⟨1, 1, -1, -1, 0, true, true, true, []⟩ : FrameSt).stream.length = 2 :=
  ⟨rfl, rfl, rfl, rfl⟩

end Framed

namespace Framed

lemma checkDone_ok_fields (s s2 : FrameSt) (h : checkDone s = .ok s2) :
    s2.stream = s.stream ∧ s2.headerRemaining = s.headerRemaining ∧
      s2.bodyRemaining = s.bodyRemaining := by
  unfold checkDone at h
  split at h
  · split at h
    · cases h
    · cases h
      exact ⟨rfl, rfl, rfl⟩
  · cases h
    exact ⟨rfl, rfl, rfl⟩

lemma rdHeader_ok_facts (plen : Nat) (st : FrameSt) (r : ReadResult)
    (h : rdHeader plen st = .ok r) :
    r.st.stream.length ≤ st.stream.length ∧
      r.st.headerRemaining.toNat + (st.stream.length - r.st.stream.length) ≤
        st.headerRemaining.toNat ∧
      r.st.bodyRemaining = st.bodyRemaining := by
  obtain ⟨hl, bl, fr, hr, br, hs, bs, ds, stm⟩ := st
  by_cases h0 : hr = 0
  · subst h0
    simp only [rdHeader, if_pos rfl] at h
    cases h
    simp
  · by_cases h1 : hr < 0
    · simp only [rdHeader, if_neg h0, if_pos h1] at h
      cases h
    · have h2 : 0 < hr := by omega
      simp only [rdHeader, checkDone, if_neg h0, if_neg h1] at h
      generalize hm : (if (plen : Int) > hr then hr.toNat else plen) = m at h
      have hmb : m ≤ hr.toNat := by
        rw [← hm]; split <;> omega
      have ht := List.length_take m stm
      have hd := List.length_drop m stm
      generalize hn : stm.take m = taken at h
      generalize hdp : stm.drop m = dropped at h
      rw [hn] at ht
      rw [hdp] at hd
      split at h
      · cases h
      · rename_i st2 heq
        cases h
        split at heq
        · split at heq
          · cases heq
          · cases heq
            refine ⟨?_, ?_, ?_⟩ <;> simp only <;> omega
        · cases heq
          refine ⟨?_, ?_, ?_⟩ <;> simp only <;> omega

lemma discardLoop_bound (fuel : Nat) : ∀ (total : Nat) (st : FrameSt)
    (res : Nat × Option GoErr × FrameSt),
    discardLoop fuel total st = .ok res →
    res.2.2.stream.length ≤ st.stream.length ∧
      st.stream.length - res.2.2.stream.length ≤ st.headerRemaining.toNat ∧
      res.2.2.bodyRemaining = st.bodyRemaining := by
  induction fuel with
  | zero =>
    intro _ _ _ h
    cases h
  | succ fuel ih =>
    intro total st res h
    simp only [discardLoop] at h
    split at h
    · cases h
    · rename_i r hrd
      obtain ⟨hf1, hf2, hf3⟩ := rdHeader_ok_facts 8192 st r hrd
      split at h
      · obtain ⟨hr1, hr2, hr3⟩ := ih (total + r.n) r.st res h
        exact ⟨by omega, by omega, by rw [hr3, hf3]⟩
      · cases h
        refine ⟨hf1, ?_, hf3⟩
        show st.stream.length - r.st.stream.length ≤ st.headerRemaining.toNat
        omega
      · cases h
        refine ⟨hf1, ?_, hf3⟩
        show st.stream.length - r.st.stream.length ≤ st.headerRemaining.toNat
        omega

lemma discardHeader_bound (st : FrameSt) (eo : Option GoErr) (st1 : FrameSt)
    (h : discardHeader st = .ok (eo, st1)) :
    st1.stream.length ≤ st.stream.length ∧
      st.stream.length - st1.stream.length ≤ st.headerRemaining.toNat ∧
      st1.bodyRemaining = st.bodyRemaining := by
  unfold discardHeader at h
  split at h
  · split at h
    · cases h
    · rename_i res hdl
      have hb := discardLoop_bound _ _ _ _ hdl
      simp only [] at h
      split at h
      · cases h
      · rename_i st3 hcd
        have hc := checkDone_ok_fields _ _ hcd
        cases h
        simp only at hc hb
        refine ⟨?_, ?_, ?_⟩
        · rw [hc.1]; exact hb.1
        · rw [hc.1]; exact hb.2.1
        · rw [hc.2.2]; exact hb.2.2
  · split at h
    · cases h
    · rename_i st2 hcd
      have hc := checkDone_ok_fields _ _ hcd
      cases h
      exact ⟨le_of_eq (by rw [hc.1]), by rw [hc.1]; omega, hc.2.2⟩

/-- C10 (amended): a single call to a section's Read consumes from the
underlying stream at most the section's remaining byte count plus, for
the body section, the remaining bytes of a not yet drained header —
which the body read drains first through its init function.  The copy
into the caller buffer itself is clamped to bytesRemaining, so a read
never consumes bytes of a subsequent frame. -/
theorem sectionRead_consumption_bound (plen : Nat) (st : FrameSt) (r : ReadResult) :
    (rdHeader plen st = .ok r →
      st.stream.length - r.st.stream.length ≤ st.headerRemaining.toNat) ∧
    (rdBody plen st = .ok r →
      st.stream.length - r.st.stream.length ≤
        st.headerRemaining.toNat + st.bodyRemaining.toNat) := by
  constructor
  · intro h
    have := rdHeader_ok_facts plen st r h
    omega
  · intro h
    by_cases h0 : st.bodyRemaining = 0
    · unfold rdBody at h
      rw [if_pos h0] at h
      cases h
      simp
    · unfold rdBody at h
      rw [if_neg h0] at h
      split at h
      · cases h
      · rename_i e st1 hdh
        have hb := discardHeader_bound _ _ _ hdh
        cases h
        simp only
        omega
      · rename_i st1 hdh
        have hb := discardHeader_bound _ _ _ hdh
        have hbr : st1.bodyRemaining = st.bodyRemaining := hb.2.2
        split at h
        · cases h
        · obtain ⟨hl, bl, fr, hr, br, hs, bs, ds, stm⟩ := st1
          rename_i hbn
          simp only at hbr hb hbn
          simp only [checkDone] at h
          generalize hm : (if (plen : Int) > br then br.toNat else plen) = m at h
          have hmb : m ≤ br.toNat := by
            rw [← hm]; split <;> omega
          have ht := List.length_take m stm
          have hd := List.length_drop m stm
          generalize hn : stm.take m = taken at h
          generalize hdp : stm.drop m = dropped at h
          rw [hn] at ht
          rw [hdp] at hd
          split at h
          · cases h
          · rename_i st2 heq
            cases h
            split at heq
            · split at heq
              · cases heq
              · cases heq
                simp only
                omega
            · cases heq
              simp only
              omega

end Framed

namespace Framed

/-- Witness for the amended C10: a full header read consumes exactly
the header's one remaining byte, and a body read with an undrained
header consumes two bytes, within the bound of header plus body
remaining counts. -/
theorem sectionRead_consumption_bound_witness :
    rdHeader 5 ⟨1, 0, 1, 1, 0, false, false, false, [42]⟩ =
        .ok ⟨1, [42], some .eof, ⟨1, 0, 0, 0, 0, true, false, true, []⟩⟩ ∧
      (⟨1, 0, 1, 1, 0, false, false, false, [42]⟩ : FrameSt).stream.length -
          (⟨1, 0, 0, 0, 0, true, false, true, []⟩ : FrameSt).stream.length ≤
        (⟨1, 0, 1, 1, 0, false, false, false, [42]⟩ : FrameSt).headerRemaining.toNat ∧
      rdBody 1 ⟨1, 1, 2, 1, 1, false, false, false, [170, 187]⟩ =
        .ok ⟨1, [187], some .eof, ⟨1, 1, -1, -1, 0, true, true, true, []⟩⟩ ∧
      (⟨1, 1, 2, 1, 1, false, false, false, [170, 187]⟩ : FrameSt).stream.length -
          (⟨1, 1, -1, -1, 0, true, true, true, []⟩ : FrameSt).stream.length ≤
        (⟨1, 1, 2, 1, 1, false, false, false, [170, 187]⟩ : FrameSt).headerRemaining.toNat +
          (⟨1, 1, 2, 1, 1, false, false, false, [170, 187]⟩ : FrameSt).bodyRemaining.toNat :=
  ⟨rfl,
   (sectionRead_consumption_bound 5 ⟨1, 0, 1, 1, 0, false, false, false, [42]⟩
     ⟨1, [42], some .eof, ⟨1, 0, 0, 0, 0, true, false, true, []⟩⟩).1 rfl,
   rfl,
   (sectionRead_consumption_bound 1 ⟨1, 1, 2, 1, 1, false, false, false, [170, 187]⟩
     ⟨1, [187], some .eof, ⟨1, 1, -1, -1, 0, true, true, true, []⟩⟩).2 rfl⟩

end Framed

namespace RW

/-- Go error values of the byte-oriented Reader: the buffer-too-small
error and a short-stream error standing for io errors from a stream
that ends before the declared payload. -/
inductive RWErr where
  | bufferTooSmall
  | shortStream
  deriving DecidableEq, Repr

/-- Reader.Read from the single-prefix Reader/Writer revision of the
package: decodes the next frame's two-byte little-endian length prefix
from the stream, fails with the buffer-too-small error returning n = 0
when the declared frame length exceeds the caller buffer length —
consuming only the prefix — and otherwise reads the whole payload into
the buffer with io.ReadFull and returns the frame length.  The result
is the returned byte count, the bytes copied into the caller buffer,
the Go error value, and the remaining stream. -/
def readerRead (bufLen : Nat) (stream : List Nat) :
    Nat × List Nat × Option RWErr × List Nat :=
  match stream with
  | b0 :: b1 :: rest =>
    let nb := b0 + 256 * b1
    if bufLen < nb then (0, [], some .bufferTooSmall, rest)
    else if rest.length < nb then (rest.length, rest, some .shortStream, [])
    else (nb, rest.take nb, none, rest.drop nb)
  | _ => (0, [], some .shortStream, [])

/-- C3: Reader.Read first decodes the two-byte length prefix; when the
declared frame length exceeds the buffer length it returns a
BufferTooSmall error with n = 0, consuming the prefix but no payload
bytes; otherwise, when the stream carries the whole payload, it copies
exactly the whole frame into the buffer and returns n equal to the
frame length. -/
theorem readerRead_spec (b0 b1 bufLen : Nat) (rest : List Nat) :
    (bufLen < b0 + 256 * b1 →
      readerRead bufLen (b0 :: b1 :: rest) = (0, [], some .bufferTooSmall, rest)) ∧
    (b0 + 256 * b1 ≤ bufLen → b0 + 256 * b1 ≤ rest.length →
      readerRead bufLen (b0 :: b1 :: rest) =
        (b0 + 256 * b1, rest.take (b0 + 256 * b1), none, rest.drop (b0 + 256 * b1)) ∧
      (rest.take (b0 + 256 * b1)).length = b0 + 256 * b1) := by
  constructor
  · intro h
    simp [readerRead, h]
  · intro h1 h2
    constructor
    · simp [readerRead, Nat.not_lt.mpr h1, Nat.not_lt.mpr h2]
    · rw [List.length_take]
      omega

/-- Witness for C3: a frame of declared length two against a one-byte
buffer fails with BufferTooSmall leaving the payload in the stream,
and against a three-byte buffer delivers both payload bytes. -/
theorem readerRead_spec_witness :
    (1 < 2 + 256 * 0 ∧
      readerRead 1 (2 :: 0 :: [9, 8, 7]) = (0, [], some .bufferTooSmall, [9, 8, 7])) ∧
    (2 + 256 * 0 ≤ 3 ∧ 2 + 256 * 0 ≤ ([9, 8, 7] : List Nat).length ∧
      (readerRead 3 (2 :: 0 :: [9, 8, 7]) =
          (2 + 256 * 0, ([9, 8, 7] : List Nat).take (2 + 256 * 0), none,
            ([9, 8, 7] : List Nat).drop (2 + 256 * 0)) ∧
        (([9, 8, 7] : List Nat).take (2 + 256 * 0)).length = 2 + 256 * 0)) :=
  ⟨⟨by decide, (readerRead_spec 2 0 1 [9, 8, 7]).1 (by decide)⟩,
   ⟨by decide, by decide, (readerRead_spec 2 0 3 [9, 8, 7]).2 (by decide) (by decide)⟩⟩

end RW

namespace BigFrames

/-- Error values of the current Writer and of the big-frame chainer:
the FrameTooLarge preflight failure and a truncated-chain error. -/
inductive WErr where
  | frameTooLarge
  | truncated
  deriving DecidableEq, Repr

/-- Modelled from the spec: MaxFrameLength, the maximum encodable
payload of a simple frame.  The current Writer/Reader source with
MaxFrameLength and big-frame support is not under src — only its test
file framed_test.go is.  Spec sections 4.3 and 6 fix the simple-frame
bound at 65535. -/
def MaxFrameLength : Nat := 65535

/-- Modelled from the spec: Writer.Write of the current framed Writer
with big frames disabled; the implementation is not under src — only
its test file framed_test.go is.  Spec sections 4.3 and 8: the write
fails with FrameTooLarge before touching the stream when the payload
exceeds MaxFrameLength and big frames are disabled, reporting 0 bytes
written; otherwise it writes the two-byte little-endian length prefix
followed by the payload and reports the payload length.  The result is
the reported byte count, the Go error value, and the output stream. -/
def writerWrite (frame out : List Nat) : Nat × Option WErr × List Nat :=
  if MaxFrameLength < frame.length then (0, some .frameTooLarge, out)
  else (frame.length, none, out ++ Framed.encode16 frame.length ++ frame)

/-- Modelled from the spec: Writer.WritePieces of the current framed
Writer with big frames disabled; the implementation is not under src —
only its test file framed_test.go is.  Spec section 4.3: writes one
frame whose payload is the concatenation of all pieces, with the same
size preflight as Writer.Write. -/
def writePieces (pieces : List (List Nat)) (out : List Nat) :
    Nat × Option WErr × List Nat :=
  let n := (pieces.map List.length).sum
  if MaxFrameLength < n then (0, some .frameTooLarge, out)
  else (n, none, out ++ Framed.encode16 n ++ pieces.flatten)

/-- C2: with big frames disabled, a write of more than 65535 bytes
fails with FrameTooLarge, reports 0 bytes written and leaves the
stream untouched; a write of exactly 65535 bytes succeeds and reports
exactly 65535 bytes written; and WritePieces with pieces totalling
more than 65535 bytes fails the same way. -/
theorem writer_oversized_rejection (b out : List Nat) (pieces : List (List Nat)) :
    (65535 < b.length → writerWrite b out = (0, some .frameTooLarge, out)) ∧
    (b.length = 65535 →
      writerWrite b out = (65535, none, out ++ Framed.encode16 65535 ++ b)) ∧
    (65535 < (pieces.map List.length).sum →
      writePieces pieces out = (0, some .frameTooLarge, out)) := by
  refine ⟨?_, ?_, ?_⟩
  · intro h
    simp [writerWrite, MaxFrameLength, h]
  · intro h
    simp [writerWrite, MaxFrameLength, h]
  · intro h
    simp [writePieces, MaxFrameLength, h]

/-- Witness for C2 at payloads of length 65536 and 65535 and a pair of
pieces totalling 65536 bytes. -/
theorem writer_oversized_rejection_witness :
    (65535 < (List.replicate 65536 (0 : Nat)).length ∧
      writerWrite (List.replicate 65536 0) [] = (0, some .frameTooLarge, [])) ∧
    ((List.replicate 65535 (0 : Nat)).length = 65535 ∧
      writerWrite (List.replicate 65535 0) [] =
        (65535, none, [] ++ Framed.encode16 65535 ++ List.replicate 65535 0)) ∧
    (65535 < (([List.replicate 65535 (0 : Nat), [0]].map List.length).sum) ∧
      writePieces [List.replicate 65535 0, [0]] [] = (0, some .frameTooLarge, [])) :=
  ⟨⟨by rw [List.length_replicate]; omega,
    (writer_oversized_rejection (List.replicate 65536 0) [] []).1
      (by rw [List.length_replicate]; omega)⟩,
   ⟨by rw [List.length_replicate],
    (writer_oversized_rejection (List.replicate 65535 0) [] []).2.1
      (by rw [List.length_replicate])⟩,
   ⟨by simp only [List.map_cons, List.map_nil, List.length_replicate, List.sum_cons,
      List.sum_nil, List.length_cons, List.length_nil]; omega,
    (writer_oversized_rejection [] [] [List.replicate 65535 0, [0]]).2.2
      (by simp only [List.map_cons, List.map_nil, List.length_replicate, List.sum_cons,
        List.sum_nil, List.length_cons, List.length_nil]; omega)⟩⟩

/-- Modelled from the spec: the chunk limit of big-frame mode.  Spec
sections 4.5 and 6: one bit of the 16-bit prefix is the continuation
flag, the remaining 15 bits encode the chunk length, bounding a chunk
at 32767 bytes. -/
def chunkLimit : Nat := 32767

/-- Modelled from the spec: the write-side split of the big-frame
chainer (spec section 4.5); the implementation is not under src — only
its test file is.  A logical payload is cut into consecutive chunks of
at most chunkLimit bytes; every chunk but the last carries the
continuation flag, the last clears it. -/
def splitChunks (p : List Nat) : List (Bool × List Nat) :=
  if h : chunkLimit < p.length then
    (true, p.take chunkLimit) :: splitChunks (p.drop chunkLimit)
  else [(false, p)]
termination_by p.length
decreasing_by
  simp only [List.length_drop, chunkLimit] at *
  omega

/-- Modelled from the spec: the wire encoding of one chunk (spec
sections 4.5 and 6): a two-byte little-endian prefix holding the
continuation flag in the top bit and the chunk length in the lower 15
bits, followed by the chunk bytes. -/
def encodeChunk : Bool × List Nat → List Nat
  | (flag, c) => Framed.encode16 (c.length + if flag then 32768 else 0) ++ c

/-- Modelled from the spec: the write side of big-frame mode — the
payload is split into chunks and each chunk is emitted as one physical
frame on the stream. -/
def bigWrite (p : List Nat) : List Nat :=
  ((splitChunks p).map encodeChunk).flatten

/-- Modelled from the spec: the read-side reassembly loop of the
big-frame chainer (spec section 4.5): decode a prefix, strip the
continuation flag to obtain the chunk length, append the chunk bytes
to the logical buffer, continue while the flag is set, and return the
assembled message with the remaining stream once it is clear. -/
def bigReadLoop (acc : List Nat) (wire : List Nat) :
    Except WErr (List Nat × List Nat) :=
  match wire with
  | b0 :: b1 :: rest =>
    let w := b0 + 256 * b1
    let clen := w % 32768
    if clen ≤ rest.length then
      if 32768 ≤ w then bigReadLoop (acc ++ rest.take clen) (rest.drop clen)
      else .ok (acc ++ rest.take clen, rest.drop clen)
    else .error .truncated
  | _ => .error .truncated
termination_by wire.length
decreasing_by
  simp only [List.length_drop, List.length_cons]
  omega

/-- Modelled from the spec: reading one whole logical message with big
frames enabled, starting from an empty logical buffer. -/
def bigRead (wire : List Nat) : Except WErr (List Nat) :=
  (bigReadLoop [] wire).map (fun r => r.1)

lemma bigReadLoop_chunk (flag : Bool) (c rest acc : List Nat) (hc : c.length ≤ 32767) :
    bigReadLoop acc (encodeChunk (flag, c) ++ rest) =
      if flag then bigReadLoop (acc ++ c) rest else .ok (acc ++ c, rest) := by
  have hdec := Framed.decode_encode16 (c.length + if flag then 32768 else 0)
    (by split <;> omega)
  have hclen : (c.length + if flag then 32768 else 0) % 32768 = c.length := by
    cases flag <;> simp <;> omega
  simp only [encodeChunk, Framed.encode16, List.cons_append, List.nil_append]
  rw [bigReadLoop]
  rw [hdec, hclen]
  rw [if_pos (by simp)]
  cases flag
  · rw [if_neg (by simp; omega)]
    simp [List.take_left, List.drop_left]
  · rw [if_pos (by simp)]
    simp [List.take_left, List.drop_left]

lemma bigRead_splitChunks (N : Nat) : ∀ (p acc : List Nat), p.length ≤ N →
    bigReadLoop acc (((splitChunks p).map encodeChunk).flatten) = .ok (acc ++ p, []) := by
  induction N with
  | zero =>
    intro p acc hp
    have hp0 : p = [] := List.length_eq_zero.mp (by omega)
    subst hp0
    rw [splitChunks, dif_neg (by simp [chunkLimit])]
    simp only [List.map_cons, List.map_nil, List.flatten_cons, List.flatten_nil]
    rw [bigReadLoop_chunk false [] [] acc (by simp)]
    simp
  | succ N ih =>
    intro p acc hp
    by_cases h : chunkLimit < p.length
    · rw [splitChunks, dif_pos h]
      simp only [List.map_cons, List.flatten_cons]
      rw [bigReadLoop_chunk true (p.take chunkLimit) _ acc
        (by simp [List.length_take, chunkLimit])]
      rw [if_pos rfl]
      rw [ih (p.drop chunkLimit) (acc ++ p.take chunkLimit)
        (by simp only [List.length_drop, chunkLimit] at *; omega)]
      rw [List.append_assoc, List.take_append_drop]
    · rw [splitChunks, dif_neg h]
      simp only [List.map_cons, List.map_nil, List.flatten_cons, List.flatten_nil]
      rw [bigReadLoop_chunk false p [] acc (by simp only [chunkLimit] at h; omega)]
      simp

lemma splitChunks_65536 (p : List Nat) (hp : p.length = 65536) :
    (splitChunks p).length = 3 ∧ (splitChunks p).map Prod.fst = [true, true, false] := by
  rw [splitChunks, dif_pos (by simp [chunkLimit, hp])]
  rw [splitChunks, dif_pos (by simp [chunkLimit, List.length_drop, hp])]
  rw [splitChunks, dif_neg (by simp [chunkLimit, List.length_drop, hp])]
  simp

/-- C9: a payload of length MaxFrameLength + 1 = 65536 written with
big frames enabled splits into ceil(65536 / 32767) = 3 physical
chunks, with the continuation flag set on every chunk but the last and
clear on the last, and reading the emitted wire bytes back with big
frames enabled reassembles exactly the original payload. -/
theorem bigFrame_chain_roundtrip (p : List Nat) (hp : p.length = MaxFrameLength + 1) :
    (splitChunks p).length = (65536 + 32766) / 32767 ∧
      (splitChunks p).map Prod.fst = [true, true, false] ∧
      bigRead (bigWrite p) = .ok p := by
  have hp' : p.length = 65536 := hp
  have h1 := splitChunks_65536 p hp'
  refine ⟨?_, h1.2, ?_⟩
  · rw [h1.1]
  · unfold bigRead bigWrite
    rw [bigRead_splitChunks p.length p [] le_rfl]
    rfl

/-- Witness for C9 at the concrete payload of 65536 copies of the
byte 7. -/
theorem bigFrame_chain_roundtrip_witness :
    (List.replicate 65536 (7 : Nat)).length = MaxFrameLength + 1 ∧
      (splitChunks (List.replicate 65536 7)).length = (65536 + 32766) / 32767 ∧
      (splitChunks (List.replicate 65536 7)).map Prod.fst = [true, true, false] ∧
      bigRead (bigWrite (List.replicate 65536 7)) = .ok (List.replicate 65536 7) := by
  have h := bigFrame_chain_roundtrip (List.replicate 65536 7)
    (by rw [List.length_replicate, MaxFrameLength])
  exact ⟨by rw [List.length_replicate, MaxFrameLength], h.1, h.2.1, h.2.2⟩

end BigFrames
